import Mathlib

/-!
Verification of the data-quality platform's business rules engine against its
specification.  The repository ships the React frontend (BusinessResults.jsx,
DataCheckOption.jsx, AnalysisResults.jsx, AdvancedResults.jsx), deployment
scripts and the MySQL schema; the Python backend implementing the Rule
Evaluator, Violation Store and Orchestrator is not part of the source tree.
Definitions taken from frontend source files say so in their doc comment;
definitions for the missing backend are modelled from the specification and
marked `Modelled from the spec:`.
-/

namespace DQ

/-- Modelled from the spec: cell values read from a tabular source are
"string, number, null, date" (§4.2); dates behave as strings for the rule
classes treated here, so a value is null, a string, or a (rational) number. -/
inductive Value where
  | null : Value
  | str : String → Value
  | num : ℚ → Value
deriving DecidableEq, Repr

/-- Parse a run of decimal digits with an accumulator; any non-digit
character makes the whole parse fail. -/
def parseDigitsAux : List Char → Nat → Option Nat
  | [], acc => some acc
  | c :: cs, acc =>
      if c.isDigit then parseDigitsAux cs (acc * 10 + (c.toNat - 48)) else none

/-- A non-empty all-digit character run denotes a natural number. -/
def parseDigits : List Char → Option Nat
  | [] => none
  | c :: cs => parseDigitsAux (c :: cs) 0

/-- Parse an unsigned decimal literal, with an optional single fraction
part after a dot, into a rational number. -/
def parseUnsigned (cs : List Char) : Option ℚ :=
  match cs.span (fun c => c != '.') with
  | (intPart, []) => (parseDigits intPart).map (fun n => (n : ℚ))
  | (intPart, _dot :: fracPart) =>
      if fracPart.contains '.' then none
      else
        match parseDigits intPart, parseDigits fracPart with
        | some ni, some nf => some ((ni : ℚ) + (nf : ℚ) / (10 : ℚ) ^ fracPart.length)
        | _, _ => none

/-- Modelled from the spec: "value is parsed as numeric" (§4.3) — the
backend numeric coercion is not in the repository.  A decimal string with
optional leading minus sign and optional fraction part coerces to a
rational number; anything else does not. -/
def parseNum (s : String) : Option ℚ :=
  match s.data with
  | '-' :: rest => (parseUnsigned rest).map (fun q => -q)
  | cs => parseUnsigned cs

/-- Modelled from the spec: numeric coercion of a cell value (§4.3).  A
number coerces to itself, a string is parsed as a decimal literal, and
null "cannot be coerced to a number". -/
def Value.asNum : Value → Option ℚ
  | .num q => some q
  | .str s => parseNum s
  | .null => none

/-- The six comparison operators offered by the rule form in
BusinessResults.jsx (options "<", ">", "<=", ">=", "=", "!="). -/
inductive Op where
  | lt | gt | le | ge | eq | ne
deriving DecidableEq, Repr

/-- Modelled from the spec: "operator(value, threshold_value) holds" (§4.3)
with the usual numeric reading of each comparison symbol. -/
def applyOp : Op → ℚ → ℚ → Bool
  | .lt, a, b => decide (a < b)
  | .gt, a, b => decide (a > b)
  | .le, a, b => decide (a ≤ b)
  | .ge, a, b => decide (a ≥ b)
  | .eq, a, b => decide (a = b)
  | .ne, a, b => decide (a ≠ b)

/-- A row is a mapping from column name to raw value (§4.2). -/
def Row := String → Value

/-- Modelled from the spec: a Violation records the row reference (none for
aggregate-level violations, where "row-level concept does not apply"), the
column and a reason describing the failure (§3). -/
structure Violation where
  row_index : Option Nat
  column_name : String
  reason : String
deriving DecidableEq, Repr

/-- A `mandatory` rule names the column that must be populated (§4.3). -/
structure MandatoryRule where
  source_column : String
deriving DecidableEq, Repr

/-- A `threshold` rule compares one column against a numeric threshold
via a comparison operator (§3, §4.3). -/
structure ThresholdRule where
  source_column : String
  operator : Op
  threshold_value : ℚ
deriving DecidableEq, Repr

/-- Modelled from the spec: the nine aggregation (KPI) functions of §4.3 —
sum/avg/count/min/max/median/stddev/null_count/distinct_count. -/
inductive AggOp where
  | sum | avg | count | min | max | median | stddev | null_count | distinct_count
deriving DecidableEq, Repr

/-- A `kpi`/`aggregate` rule applies an aggregation function to a column
and compares the result against a threshold (§3, §4.3). -/
structure AggregateRule where
  source_column : String
  operator_type : AggOp
  operator : Op
  threshold_value : ℚ
deriving DecidableEq, Repr

/-- The numeric values of a column, keeping only cells that coerce. -/
def numsOf (vs : List Value) : List ℚ := vs.filterMap Value.asNum

/-- Average of a list of rationals; undefined on the empty list. -/
def ratAvg (ns : List ℚ) : Option ℚ :=
  if ns.length = 0 then none else some (ns.sum / (ns.length : ℚ))

/-- Lower median: the middle element of the sorted list. -/
def ratMedian (ns : List ℚ) : Option ℚ :=
  let sorted := ns.insertionSort (· ≤ ·)
  sorted.get? ((sorted.length - 1) / 2)

/-- Population variance Σ(x − mean)² / n of the numeric cells; undefined on
an empty list (the spec fixes no population/sample choice, so the
population form is taken and documented here). -/
def ratVariance (ns : List ℚ) : Option ℚ :=
  (ratAvg ns).map
    (fun m => ((ns.map (fun x => (x - m) * (x - m))).sum) / (ns.length : ℚ))

/-- The exact value of an aggregation: either a rational number, or
`sqrtRat q`, denoting the (generally irrational) square root `√q` of a
non-negative rational — the standard deviation is the square root of the
variance.  `AggValue.toReal` gives the denoted real number. -/
inductive AggValue where
  | rat : ℚ → AggValue
  | sqrtRat : ℚ → AggValue
deriving DecidableEq, Repr

/-- The real number an `AggValue` denotes. -/
noncomputable def AggValue.toReal : AggValue → ℝ
  | .rat q => (q : ℝ)
  | .sqrtRat q => Real.sqrt (q : ℝ)

/-- Modelled from the spec: "aggregation function
(sum/avg/count/min/max/median/stddev/null_count/distinct_count) applied to
source_column" over the entire column (§4.3); the backend evaluator is not
in the repository.  `none` signals that the aggregate is undefined
(avg/min/max/median/stddev of a column with no numeric cells); stddev is
`sqrtRat` of the variance, i.e. the exact √variance. -/
def aggValue : AggOp → List Value → Option AggValue
  | .sum, vs => some (AggValue.rat (numsOf vs).sum)
  | .avg, vs => (ratAvg (numsOf vs)).map AggValue.rat
  | .count, vs => some (AggValue.rat ((vs.length : ℚ)))
  | .min, vs => ((numsOf vs).min?).map AggValue.rat
  | .max, vs => ((numsOf vs).max?).map AggValue.rat
  | .median, vs => (ratMedian (numsOf vs)).map AggValue.rat
  | .stddev, vs => (ratVariance (numsOf vs)).map AggValue.sqrtRat
  | .null_count, vs =>
      some (AggValue.rat ((vs.countP (fun v => decide (v = Value.null)) : ℚ)))
  | .distinct_count, vs => some (AggValue.rat ((vs.dedup.length : ℚ)))

/-- The real-valued semantics of an aggregation, with stddev the genuine
`Real.sqrt` of the variance. -/
noncomputable def aggValueR (op : AggOp) (vs : List Value) : Option ℝ :=
  (aggValue op vs).map AggValue.toReal

/-- The usual real reading of each comparison symbol. -/
def opHolds : Op → ℝ → ℝ → Prop
  | .lt, a, b => a < b
  | .gt, a, b => b < a
  | .le, a, b => a ≤ b
  | .ge, a, b => b ≤ a
  | .eq, a, b => a = b
  | .ne, a, b => ¬ a = b

/-- Decide `√q ≤ t` exactly over ℚ (for `0 ≤ q`): the threshold must be
non-negative and dominate `q` after squaring. -/
def sqrtLE (q t : ℚ) : Bool := decide (0 ≤ t ∧ q ≤ t * t)

/-- Decide `√q < t` exactly over ℚ (for `0 ≤ q`). -/
def sqrtLT (q t : ℚ) : Bool := decide (0 ≤ t ∧ q < t * t)

/-- Decide `√q = t` exactly over ℚ (for `0 ≤ q`). -/
def sqrtEQ (q t : ℚ) : Bool := decide (0 ≤ t ∧ q = t * t)

/-- Apply a comparison operator to an aggregate value and a rational
threshold, deciding the comparison of the denoted real number exactly
(see `applyOpAgg_iff`). -/
def applyOpAgg : Op → AggValue → ℚ → Bool
  | op, .rat q, t => applyOp op q t
  | .lt, .sqrtRat q, t => sqrtLT q t
  | .gt, .sqrtRat q, t => !sqrtLE q t
  | .le, .sqrtRat q, t => sqrtLE q t
  | .ge, .sqrtRat q, t => !sqrtLT q t
  | .eq, .sqrtRat q, t => sqrtEQ q t
  | .ne, .sqrtRat q, t => !sqrtEQ q t

/-- Modelled from the spec: a string is "empty after trim" exactly when all
of its characters are whitespace (§4.3 mandatory row). -/
def isBlank (s : String) : Bool := s.data.all (fun c => c.isWhitespace)

/-- Modelled from the spec: the mandatory pass condition is "source_column
value is non-null and non-empty-string after trim" (§4.3). -/
def isMissing : Value → Bool
  | .null => true
  | .str s => isBlank s
  | .num _ => false

/-- Modelled from the spec: evaluating a `mandatory` rule on one row — a
null/empty value yields exactly one violation for that row (§4.3, §8). -/
def evalMandatory (rule : MandatoryRule) (idx : Nat) (row : Row) : List Violation :=
  if isMissing (row rule.source_column) then
    [{ row_index := some idx, column_name := rule.source_column
     , reason := "missing mandatory value" }]
  else []

/-- Modelled from the spec: evaluating a `threshold` rule on one row — pass
iff `operator(value, threshold_value)` holds with the value parsed as
numeric; a value that cannot be coerced is recorded as a violation with
the distinguished reason "non-numeric value", not a silent pass and not a
crash (§4.3, the evaluation is total) (§4.3). -/
def evalThreshold (rule : ThresholdRule) (idx : Nat) (row : Row) : List Violation :=
  match (row rule.source_column).asNum with
  | none =>
      [{ row_index := some idx, column_name := rule.source_column
       , reason := "non-numeric value" }]
  | some v =>
      if applyOp rule.operator v rule.threshold_value then []
      else
        [{ row_index := some idx, column_name := rule.source_column
         , reason := "threshold violated" }]

/-- Modelled from the spec: evaluating a `kpi`/`aggregate` rule once per
run — the aggregation function is applied to the entire source column
across all rows, compared via the operator to the threshold, and a failed
comparison yields a single violation summarising the run ("row-level
concept does not apply", §4.3). -/
def evalAggregate (rule : AggregateRule) (rows : List Row) : List Violation :=
  let col := rows.map (fun row => row rule.source_column)
  match aggValue rule.operator_type col with
  | none =>
      [{ row_index := none, column_name := rule.source_column
       , reason := "non-numeric aggregate" }]
  | some a =>
      if applyOpAgg rule.operator a rule.threshold_value then []
      else
        [{ row_index := none, column_name := rule.source_column
         , reason := "aggregate threshold violated" }]

/-- Modelled from the spec: the rule variants relevant to the claims, with
`kpi` and `aggregate` sharing one evaluation policy (§4.3 lists them on a
single row of the dispatch table). -/
inductive Rule where
  | mandatory : MandatoryRule → Rule
  | threshold : ThresholdRule → Rule
  | kpi : AggregateRule → Rule
  | aggregate : AggregateRule → Rule

/-- Modelled from the spec: per-row dispatch — `kpi`/`aggregate` rules are
"the one rule class that cannot be decided row-by-row" and contribute no
per-row violations (§4.3). -/
def evalRuleRow (r : Rule) (idx : Nat) (row : Row) : List Violation :=
  match r with
  | .mandatory m => evalMandatory m idx row
  | .threshold t => evalThreshold t idx row
  | .kpi _ => []
  | .aggregate _ => []

/-- Modelled from the spec: column-level dispatch — only `kpi`/`aggregate`
rules are evaluated "once after/alongside the scan" (§4.5 step 3). -/
def evalRuleColumn (r : Rule) (rows : List Row) : List Violation :=
  match r with
  | .mandatory _ => []
  | .threshold _ => []
  | .kpi a => evalAggregate a rows
  | .aggregate a => evalAggregate a rows

/-- Modelled from the spec: all violations one rule produces over a run —
its per-row violations in row order followed by its column-level
violations (§4.5 step 3). -/
def ruleViolations (r : Rule) (rows : List Row) : List Violation :=
  (rows.enum.flatMap (fun p => evalRuleRow r p.1 p.2)) ++ evalRuleColumn r rows

/-- Modelled from the spec: every failing (row, rule) pair of the run
becomes a violation record (§2 control flow). -/
def runViolations (rules : List Rule) (rows : List Row) : List Violation :=
  rules.flatMap (fun r => ruleViolations r rows)

/-- Modelled from the spec: the result shape of
`getPage(session_id, page, page_size)` (§4.4). -/
structure PageResult where
  items : List Violation
  page : Nat
  page_size : Nat
  total_pages : Nat
  total_items : Nat
deriving DecidableEq, Repr

/-- Modelled from the spec: the Violation Store page read (§4.4) — the
backend store is not in the repository.  Pages are 1-indexed;
`total_pages` is the ceiling of `total_items / page_size`; the function is
total, so an out-of-range page is answered (with an empty item list)
rather than raising an error. -/
def getPage (store : List Violation) (page page_size : Nat) : PageResult :=
  { items := (store.drop ((page - 1) * page_size)).take page_size
  , page := page
  , page_size := page_size
  , total_pages := (store.length + page_size - 1) / page_size
  , total_items := store.length }

/-- Modelled from the spec: `dq_score = 100 × (1 − violation_count /
(total_rows × rules_applied))` clamped to [0,100] (§4.5 step 5); when the
denominator is zero (no rows or no rules) there are no checks, and the
clamped score is 100. -/
def dqScore (violations totalRows rulesApplied : Nat) : ℚ :=
  if totalRows * rulesApplied = 0 then 100
  else
    max 0 (min 100 (100 * (1 - (violations : ℚ) / ((totalRows : ℚ) * (rulesApplied : ℚ)))))

/-- Modelled from the spec: the run summary counts of §4.5 step 6 —
rules_passed counts "rules producing zero violations". -/
structure RunSummary where
  total_records_checked : Nat
  total_violations : Nat
  rules_passed : Nat
  rules_failed : Nat
deriving DecidableEq, Repr

/-- Modelled from the spec: the execute-rules response of §6 — "output
{session_id, dq_score, summary, first violation page}". -/
structure ExecuteResponse where
  session_id : Nat
  dq_score : ℚ
  summary : RunSummary
  first_page : PageResult
deriving DecidableEq, Repr

/-- Modelled from the spec: the Orchestrator `executeRun` (§4.5, §6) — the
backend orchestrator is not in the repository.  It evaluates the selected
rules over the streamed rows, persists the violations under the session,
computes the dq_score and the summary counts, and returns them together
with the first violation page. -/
def executeRun (sid : Nat) (rules : List Rule) (rows : List Row) (page_size : Nat) :
    ExecuteResponse :=
  let vs := runViolations rules rows
  { session_id := sid
  , dq_score := dqScore vs.length rows.length rules.length
  , summary :=
      { total_records_checked := rows.length
      , total_violations := vs.length
      , rules_passed := (rules.filter (fun r => (ruleViolations r rows).isEmpty)).length
      , rules_failed := (rules.filter (fun r => !(ruleViolations r rows).isEmpty)).length }
  , first_page := getPage vs 1 page_size }

/-- Modelled from the spec: the Rule Store record as far as deactivation is
concerned — identity, a payload standing for the remaining definition
fields, and the `is_active` flag (§3, §4.1). -/
structure StoredRule where
  rule_id : Nat
  rule_name : String
  is_active : Bool
deriving DecidableEq, Repr

/-- Modelled from the spec: `deactivateRule(id)` "sets is_active=false;
idempotent (no error if already inactive)"; "Rules are never hard-deleted"
(§3, §4.1) — the backend store is not in the repository.  The store keeps
every record; only the matching record's flag changes. -/
def deactivateRule (store : List StoredRule) (id : Nat) : List StoredRule :=
  store.map (fun r => if r.rule_id = id then { r with is_active := false } else r)

/-- The rule-form fields of BusinessResults.jsx relevant to case
sensitivity: `rule_type`, `comparison_type` and the yes/no select state
`is_case_sensitive`. -/
structure RuleFormState where
  rule_name : String
  rule_type : String
  comparison_type : String
  is_case_sensitive : String
deriving DecidableEq, Repr

/-- INITIAL_RULE_STATE from BusinessResults.jsx: `rule_type: 'mandatory'`,
`comparison_type: 'exact'`, `is_case_sensitive: 'n'`. -/
def INITIAL_RULE_STATE : RuleFormState :=
  { rule_name := "", rule_type := "mandatory", comparison_type := "exact"
  , is_case_sensitive := "n" }

/-- Changing the Rule Type select in BusinessResults.jsx spreads the
previous state and overwrites only `rule_type`
(`setNewRule({ ...newRule, rule_type: e.target.value })`). -/
def setRuleType (st : RuleFormState) (t : String) : RuleFormState :=
  { st with rule_type := t }

/-- The create/update payload fields of handleSaveRule in
BusinessResults.jsx that the case-sensitivity claim is about. -/
structure SavePayload where
  rule_name : String
  rule_type : String
  comparison_type : String
  case_sensitive : Nat
  is_active : Nat
deriving DecidableEq, Repr

/-- The payload construction of handleSaveRule in BusinessResults.jsx:
`comparison_type: newRule.comparison_type || 'exact'`, `is_active: 1`,
`case_sensitive: newRule.is_case_sensitive === 'y' ? 1 : 0`. -/
def handleSaveRulePayload (st : RuleFormState) : SavePayload :=
  { rule_name := st.rule_name
  , rule_type := st.rule_type
  , comparison_type := if st.comparison_type = "" then "exact" else st.comparison_type
  , case_sensitive := if st.is_case_sensitive = "y" then 1 else 0
  , is_active := 1 }

/-- The HTTP request shape sent by handleDeleteRule in BusinessResults.jsx:
a `PUT` to `/api/rules/{id}` whose body is `{ is_active: 0 }` — an update,
not a `DELETE`. -/
structure UpdateRequest where
  method : String
  body_is_active : Nat
deriving DecidableEq, Repr

/-- The request built by handleDeleteRule in BusinessResults.jsx. -/
def handleDeleteRuleRequest : UpdateRequest :=
  { method := "PUT", body_is_active := 0 }

/-- The backslash normalisation of the upload helper in
DataCheckOption.jsx: `j.full_path.replace(/\\/g, '/')` replaces every
backslash character with a forward slash. -/
def normalizePath (p : String) : String :=
  ⟨p.data.map (fun c => if c = '\\' then '/' else c)⟩

/-- The upload helper of handleRunAnalysis in DataCheckOption.jsx: with no
file selected it returns null before uploading; otherwise it returns
`j.full_path ? j.full_path.replace(/\\/g, '/') : null`, where a missing or
empty (falsy) `full_path` yields null. -/
def uploadPath (fileSelected : Bool) (full_path : Option String) : Option String :=
  if fileSelected then
    match full_path with
    | none => none
    | some p => if p = "" then none else some (normalizePath p)
  else none

/-- The pagination state fields of AnalysisResults.jsx and
BusinessResults.jsx that the page-bounds claim is about. -/
structure PaginationState where
  page : Nat
  totalPages : Nat
deriving DecidableEq, Repr

/-- handlePageChange of AnalysisResults.jsx: the state is updated only when
`newPage >= 1 && newPage <= pagination.totalPages`, otherwise it is left
unchanged.  The requested page is an integer, so below-1 requests are
representable. -/
def handlePageChange (st : PaginationState) (newPage : Int) : PaginationState :=
  if 1 ≤ newPage ∧ newPage ≤ (st.totalPages : Int) then { st with page := newPage.toNat }
  else st

/-- The Previous button condition of the pagination controls in
BusinessResults.jsx renderReport and AnalysisResults.jsx:
`disabled={pagination.page === 1 || loading}`. -/
def prevDisabled (st : PaginationState) (loading : Bool) : Bool :=
  (st.page == 1) || loading

/-- The Next button condition of the pagination controls in
BusinessResults.jsx renderReport:
`disabled={pagination.page === pagination.totalPages || loading}`. -/
def nextDisabled (st : PaginationState) (loading : Bool) : Bool :=
  (st.page == st.totalPages) || loading

/-- A concrete row used by witnesses: one numeric column. -/
def sampleNumRow : Row := fun c => if c = "amount" then Value.num 150 else Value.null

/-- A concrete violation list used by the pagination witness. -/
def sampleStore : List Violation :=
  [ { row_index := some 0, column_name := "email", reason := "missing mandatory value" }
  , { row_index := some 1, column_name := "email", reason := "missing mandatory value" }
  , { row_index := some 2, column_name := "email", reason := "missing mandatory value" } ]

/-- Ceiling division times the divisor dominates the dividend. -/
theorem le_ceil_mul (n ps : Nat) (hps : 0 < ps) : n ≤ ((n + ps - 1) / ps) * ps := by
  rw [Nat.mul_comm]
  have hdm := Nat.div_add_mod (n + ps - 1) ps
  have hlt := Nat.mod_lt (n + ps - 1) hps
  omega

/-- Mapping a field that ignores `is_active` across a deactivation changes
nothing. -/
theorem deactivateRule_map {α : Type} (f : StoredRule → α)
    (hf : ∀ r, f { r with is_active := false } = f r)
    (store : List StoredRule) (id : Nat) :
    (deactivateRule store id).map f = store.map f := by
  unfold deactivateRule
  rw [List.map_map]
  apply List.map_congr_left
  intro r _
  show f (if r.rule_id = id then { r with is_active := false } else r) = f r
  by_cases h : r.rule_id = id
  · rw [if_pos h]; exact hf r
  · rw [if_neg h]

/-- The population variance is non-negative. -/
theorem ratVariance_nonneg (ns : List ℚ) (q : ℚ) (h : ratVariance ns = some q) :
    0 ≤ q := by
  simp only [ratVariance, Option.map_eq_some'] at h
  obtain ⟨m, hm, hq⟩ := h
  subst hq
  apply div_nonneg
  · apply List.sum_nonneg
    intro x hx
    obtain ⟨y, hy, rfl⟩ := List.mem_map.mp hx
    exact mul_self_nonneg _
  · exact Nat.cast_nonneg _

/-- Only stddev produces a square-root value, and its radicand — the
variance — is non-negative. -/
theorem aggValue_sqrt_nonneg (op : AggOp) (vs : List Value) (q : ℚ)
    (h : aggValue op vs = some (AggValue.sqrtRat q)) : 0 ≤ q := by
  cases op <;> simp [aggValue, Option.map_eq_some'] at h
  exact ratVariance_nonneg _ _ h

/-- `sqrtLE` decides `√q ≤ t` for a non-negative radicand. -/
theorem sqrtLE_iff (q t : ℚ) (hq : 0 ≤ q) :
    sqrtLE q t = true ↔ Real.sqrt (q : ℝ) ≤ (t : ℝ) := by
  unfold sqrtLE
  rw [decide_eq_true_eq]
  constructor
  · rintro ⟨ht, hle⟩
    have h1 : Real.sqrt (q : ℝ) ≤ Real.sqrt ((t : ℝ) * (t : ℝ)) :=
      Real.sqrt_le_sqrt (by exact_mod_cast hle)
    rwa [Real.sqrt_mul_self (by exact_mod_cast ht)] at h1
  · intro h
    have htR : (0 : ℝ) ≤ (t : ℝ) := le_trans (Real.sqrt_nonneg _) h
    refine ⟨by exact_mod_cast htR, ?_⟩
    have h2 : Real.sqrt (q : ℝ) * Real.sqrt (q : ℝ) ≤ (t : ℝ) * (t : ℝ) :=
      mul_self_le_mul_self (Real.sqrt_nonneg _) h
    rw [Real.mul_self_sqrt (by exact_mod_cast hq)] at h2
    exact_mod_cast h2

/-- `sqrtLT` decides `√q < t` for a non-negative radicand. -/
theorem sqrtLT_iff (q t : ℚ) (hq : 0 ≤ q) :
    sqrtLT q t = true ↔ Real.sqrt (q : ℝ) < (t : ℝ) := by
  unfold sqrtLT
  rw [decide_eq_true_eq]
  constructor
  · rintro ⟨ht, hlt⟩
    have h1 : Real.sqrt (q : ℝ) < Real.sqrt ((t : ℝ) * (t : ℝ)) :=
      Real.sqrt_lt_sqrt (by exact_mod_cast hq) (by exact_mod_cast hlt)
    rwa [Real.sqrt_mul_self (by exact_mod_cast ht)] at h1
  · intro h
    have htR : (0 : ℝ) ≤ (t : ℝ) := le_trans (Real.sqrt_nonneg _) (le_of_lt h)
    refine ⟨by exact_mod_cast htR, ?_⟩
    have h2 : Real.sqrt (q : ℝ) * Real.sqrt (q : ℝ) < (t : ℝ) * (t : ℝ) :=
      mul_self_lt_mul_self (Real.sqrt_nonneg _) h
    rw [Real.mul_self_sqrt (by exact_mod_cast hq)] at h2
    exact_mod_cast h2

/-- `sqrtEQ` decides `√q = t` for a non-negative radicand. -/
theorem sqrtEQ_iff (q t : ℚ) (hq : 0 ≤ q) :
    sqrtEQ q t = true ↔ Real.sqrt (q : ℝ) = (t : ℝ) := by
  unfold sqrtEQ
  rw [decide_eq_true_eq]
  constructor
  · rintro ⟨ht, heq⟩
    have h1 : (q : ℝ) = (t : ℝ) * (t : ℝ) := by exact_mod_cast heq
    rw [h1, Real.sqrt_mul_self (by exact_mod_cast ht)]
  · intro h
    have htR : (0 : ℝ) ≤ (t : ℝ) := h ▸ Real.sqrt_nonneg _
    refine ⟨by exact_mod_cast htR, ?_⟩
    have h2 : (q : ℝ) = (t : ℝ) * (t : ℝ) := by
      rw [← h, Real.mul_self_sqrt (by exact_mod_cast hq)]
    exact_mod_cast h2

/-- The computable comparison of an aggregate value against a rational
threshold agrees with the real comparison of the denoted real number,
whenever square-root values have non-negative radicands (which
`aggValue_sqrt_nonneg` guarantees for every evaluator result). -/
theorem applyOpAgg_iff (op : Op) (av : AggValue) (t : ℚ)
    (hnn : ∀ q, av = AggValue.sqrtRat q → 0 ≤ q) :
    applyOpAgg op av t = true ↔ opHolds op av.toReal (t : ℝ) := by
  cases av with
  | rat q =>
      cases op <;> simp [applyOpAgg, applyOp, opHolds, AggValue.toReal]
  | sqrtRat q =>
      have hq : 0 ≤ q := hnn q rfl
      cases op with
      | lt => simpa [applyOpAgg, AggValue.toReal, opHolds] using sqrtLT_iff q t hq
      | le => simpa [applyOpAgg, AggValue.toReal, opHolds] using sqrtLE_iff q t hq
      | eq => simpa [applyOpAgg, AggValue.toReal, opHolds] using sqrtEQ_iff q t hq
      | gt =>
          rw [show applyOpAgg Op.gt (AggValue.sqrtRat q) t = !sqrtLE q t from rfl]
          rw [Bool.not_eq_true', ← Bool.not_eq_true, sqrtLE_iff q t hq]
          simp [opHolds, AggValue.toReal, not_le]
      | ge =>
          rw [show applyOpAgg Op.ge (AggValue.sqrtRat q) t = !sqrtLT q t from rfl]
          rw [Bool.not_eq_true', ← Bool.not_eq_true, sqrtLT_iff q t hq]
          simp [opHolds, AggValue.toReal, not_lt]
      | ne =>
          rw [show applyOpAgg Op.ne (AggValue.sqrtRat q) t = !sqrtEQ q t from rfl]
          rw [Bool.not_eq_true', ← Bool.not_eq_true, sqrtEQ_iff q t hq]
          simp [opHolds, AggValue.toReal]

/-- C1: threshold evaluation is consistent with direct numeric comparison —
when the value coerces to a number v, a violation is produced exactly when
operator(v, threshold_value) is false; when the value cannot be coerced, a
violation with the distinguished reason "non-numeric value" is recorded
rather than a silent pass, and evaluation is total so it cannot crash. -/
theorem threshold_eval_consistent (rule : ThresholdRule) (idx : Nat) (row : Row) :
    (∀ v, (row rule.source_column).asNum = some v →
      (evalThreshold rule idx row ≠ [] ↔
        applyOp rule.operator v rule.threshold_value = false)) ∧
    ((row rule.source_column).asNum = none →
      evalThreshold rule idx row =
        [{ row_index := some idx, column_name := rule.source_column
         , reason := "non-numeric value" }]) := by
  constructor
  · intro v hv
    simp only [evalThreshold, hv]
    by_cases h : applyOp rule.operator v rule.threshold_value = true <;> simp [h]
  · intro hn
    simp only [evalThreshold, hn]

/-- Witness for C1 at a concrete numeric row: the value 150 coerces, and a
violation is produced exactly when `150 ≤ 100` fails. -/
theorem threshold_eval_consistent_witness :
    evalThreshold { source_column := "amount", operator := Op.le, threshold_value := 100 } 0
        sampleNumRow ≠ [] ↔
      applyOp Op.le 150 100 = false :=
  (threshold_eval_consistent
    { source_column := "amount", operator := Op.le, threshold_value := 100 } 0 sampleNumRow).1
    150 rfl

/-- C3: a mandatory rule on a row whose source column is null, or a string
that is empty after trimming, yields exactly one violation for that row. -/
theorem mandatory_exactly_one_violation (rule : MandatoryRule) (idx : Nat) (row : Row)
    (h : row rule.source_column = Value.null ∨
      ∃ s, row rule.source_column = Value.str s ∧ isBlank s = true) :
    (evalMandatory rule idx row).length = 1 := by
  unfold evalMandatory
  rcases h with h | ⟨s, hs, hb⟩
  · rw [h]; simp [isMissing]
  · rw [hs]; simp [isMissing, hb]

/-- Witness for C3 at a concrete row whose "email" column is null. -/
theorem mandatory_exactly_one_violation_witness :
    (evalMandatory { source_column := "email" } 0 sampleNumRow).length = 1 :=
  mandatory_exactly_one_violation { source_column := "email" } 0 sampleNumRow (Or.inl rfl)

/-- C2: a kpi or aggregate rule — over all nine aggregation functions, the
standard deviation included — contributes no per-row violations: its run
violations are exactly the one column-level evaluation; the evaluation
depends only on the entire source column across all rows; and the
comparison of the aggregate's real value against the threshold fails
exactly when one violation is emitted for the whole run, never one per
row. -/
theorem kpi_aggregate_whole_column_single (a : AggregateRule) (rows : List Row) :
    ruleViolations (Rule.kpi a) rows = evalAggregate a rows ∧
    ruleViolations (Rule.aggregate a) rows = evalAggregate a rows ∧
    (evalAggregate a rows).length ≤ 1 ∧
    (∀ v : ℝ,
      aggValueR a.operator_type (rows.map (fun row => row a.source_column)) = some v →
      ((evalAggregate a rows).length = 1 ↔
        ¬ opHolds a.operator v (a.threshold_value : ℝ))) ∧
    (∀ rows2 : List Row,
      rows.map (fun row => row a.source_column) = rows2.map (fun row => row a.source_column) →
      evalAggregate a rows = evalAggregate a rows2) := by
  refine ⟨?_, ?_, ?_, ?_, ?_⟩
  · unfold ruleViolations evalRuleRow evalRuleColumn
    simp
  · unfold ruleViolations evalRuleRow evalRuleColumn
    simp
  · unfold evalAggregate
    rcases hagg : aggValue a.operator_type (rows.map fun row => row a.source_column) with _ | av
    · simp [hagg]
    · simp only [hagg]
      by_cases h : applyOpAgg a.operator av a.threshold_value = true <;> simp [h]
  · intro v hv
    unfold aggValueR at hv
    rcases hagg : aggValue a.operator_type (rows.map fun row => row a.source_column) with _ | av
    · rw [hagg] at hv
      simp at hv
    · rw [hagg] at hv
      have hv2 : AggValue.toReal av = v := by simpa using hv
      subst hv2
      have hnn : ∀ q, av = AggValue.sqrtRat q → 0 ≤ q := by
        intro q hq
        subst hq
        exact aggValue_sqrt_nonneg _ _ _ hagg
      have hbr := applyOpAgg_iff a.operator av a.threshold_value hnn
      simp only [evalAggregate, hagg]
      by_cases h : applyOpAgg a.operator av a.threshold_value = true
      · have hop := hbr.mp h
        simp [h, hop]
      · have hop : ¬ opHolds a.operator av.toReal (a.threshold_value : ℝ) :=
          fun hp => h (hbr.mpr hp)
        simp [h, hop]
  · intro rows2 hcols
    unfold evalAggregate
    rw [hcols]

/-- Witness for C2 at a concrete rule (sum of "amount" must be ≥ 0) on the
empty dataset, whose column sum is 0. -/
theorem kpi_aggregate_whole_column_single_witness :
    (evalAggregate
        { source_column := "amount", operator_type := AggOp.sum
        , operator := Op.ge, threshold_value := 0 } []).length = 1 ↔
      ¬ opHolds Op.ge ((AggValue.rat 0).toReal) ((0 : ℚ) : ℝ) :=
  (kpi_aggregate_whole_column_single
    { source_column := "amount", operator_type := AggOp.sum
    , operator := Op.ge, threshold_value := 0 } []).2.2.2.1 ((AggValue.rat 0).toReal) rfl

/-- C4: requesting a violations page beyond total_pages returns an empty
item list — the operation is total, so no error is raised — and reports
the same total_pages as the in-range page-1 request. -/
theorem getPage_beyond_total_pages (store : List Violation) (page ps : Nat)
    (hps : 0 < ps) (h : (getPage store 1 ps).total_pages < page) :
    (getPage store page ps).items = [] ∧
    (getPage store page ps).total_pages = (getPage store 1 ps).total_pages := by
  refine ⟨?_, rfl⟩
  have hceil : store.length ≤ ((store.length + ps - 1) / ps) * ps := le_ceil_mul _ _ hps
  have htp : (store.length + ps - 1) / ps ≤ page - 1 := by
    simp only [getPage] at h
    omega
  have hlen : store.length ≤ (page - 1) * ps :=
    le_trans hceil (Nat.mul_le_mul_right ps htp)
  simp only [getPage]
  rw [List.drop_eq_nil_of_le hlen]
  simp

/-- Witness for C4: a 3-violation store paged by 2 has 2 pages; page 5 is
empty and still reports 2 total pages. -/
theorem getPage_beyond_total_pages_witness :
    (getPage sampleStore 5 2).items = [] ∧
    (getPage sampleStore 5 2).total_pages = (getPage sampleStore 1 2).total_pages :=
  getPage_beyond_total_pages sampleStore 5 2 (by decide) (by decide)

/-- C5: the dq_score lies in [0, 100], is monotone — for fixed totals,
more violations never raises the score — and is deterministic: identical
inputs give the identical score. -/
theorem dqScore_properties (v w r k v2 r2 k2 : Nat) (hvw : v ≤ w) :
    0 ≤ dqScore v r k ∧ dqScore v r k ≤ 100 ∧ dqScore w r k ≤ dqScore v r k ∧
    (v = v2 → r = r2 → k = k2 → dqScore v r k = dqScore v2 r2 k2) := by
  refine ⟨?_, ?_, ?_, ?_⟩
  · unfold dqScore
    split
    · norm_num
    · exact le_max_left _ _
  · unfold dqScore
    split
    · norm_num
    · exact max_le (by norm_num) (min_le_left _ _)
  · unfold dqScore
    rcases eq_or_ne (r * k) 0 with hz | hz
    · rw [if_pos hz, if_pos hz]
    · rw [if_neg hz, if_neg hz]
      obtain ⟨hr, hk⟩ := Nat.mul_ne_zero_iff.mp hz
      have hd : (0 : ℚ) < (r : ℚ) * (k : ℚ) :=
        mul_pos (by exact_mod_cast Nat.pos_of_ne_zero hr)
          (by exact_mod_cast Nat.pos_of_ne_zero hk)
      have hmono : (v : ℚ) / ((r : ℚ) * (k : ℚ)) ≤ (w : ℚ) / ((r : ℚ) * (k : ℚ)) := by
        gcongr
      have h1 : 100 * (1 - (w : ℚ) / ((r : ℚ) * (k : ℚ))) ≤
          100 * (1 - (v : ℚ) / ((r : ℚ) * (k : ℚ))) := by
        linarith
      exact max_le_max le_rfl (min_le_min le_rfl h1)
  · intro h1 h2 h3
    subst h1; subst h2; subst h3
    rfl

/-- Witness for C5 on a 10-row, 1-rule run with 1 then 2 violations. -/
theorem dqScore_properties_witness :
    0 ≤ dqScore 1 10 1 ∧ dqScore 1 10 1 ≤ 100 ∧ dqScore 2 10 1 ≤ dqScore 1 10 1 ∧
    (1 = 1 → 10 = 10 → 1 = 1 → dqScore 1 10 1 = dqScore 1 10 1) :=
  dqScore_properties 1 2 10 1 1 10 1 (by decide)

/-- C6: the execute-rules response itself carries the session_id, the
dq_score, the summary counts and the first violation page — the first page
in the response equals what a separate page-1 request to the violation
store would return, so the caller needs no separate request for page 1. -/
theorem executeRun_response_complete (sid : Nat) (rules : List Rule) (rows : List Row)
    (page_size : Nat) :
    (executeRun sid rules rows page_size).session_id = sid ∧
    (executeRun sid rules rows page_size).dq_score =
      dqScore (runViolations rules rows).length rows.length rules.length ∧
    (executeRun sid rules rows page_size).summary.total_records_checked = rows.length ∧
    (executeRun sid rules rows page_size).summary.total_violations =
      (runViolations rules rows).length ∧
    (executeRun sid rules rows page_size).summary.rules_passed =
      (rules.filter (fun r => (ruleViolations r rows).isEmpty)).length ∧
    (executeRun sid rules rows page_size).first_page =
      getPage (runViolations rules rows) 1 page_size ∧
    (executeRun sid rules rows page_size).first_page.page = 1 :=
  ⟨rfl, rfl, rfl, rfl, rfl, rfl, rfl⟩

/-- C7: the rule form defaults case sensitivity to no — a text_comparison
rule created without touching the case-sensitivity select is saved with
case_sensitive = 0, and the payload carries 1 exactly when the user
explicitly selected yes. -/
theorem case_sensitive_default_off (st : RuleFormState) :
    (handleSaveRulePayload (setRuleType INITIAL_RULE_STATE "text_comparison")).rule_type =
      "text_comparison" ∧
    (handleSaveRulePayload
      (setRuleType INITIAL_RULE_STATE "text_comparison")).case_sensitive = 0 ∧
    ((handleSaveRulePayload st).case_sensitive = 1 ↔ st.is_case_sensitive = "y") ∧
    ((handleSaveRulePayload st).case_sensitive = 0 ↔ ¬ st.is_case_sensitive = "y") := by
  refine ⟨rfl, by decide, ?_, ?_⟩
  · unfold handleSaveRulePayload
    by_cases h : st.is_case_sensitive = "y" <;> simp [h]
  · unfold handleSaveRulePayload
    by_cases h : st.is_case_sensitive = "y" <;> simp [h]

/-- C8: deactivation is soft and idempotent — the store keeps every rule id
and name (no hard delete), only the is_active flag of the matching rule
changes, repeating the deactivation changes nothing further (and raises no
error, the operation being total), and the frontend issues a PUT carrying
is_active = 0 rather than a DELETE. -/
theorem deactivateRule_soft_idempotent (store : List StoredRule) (id : Nat) :
    (deactivateRule store id).map (fun r => r.rule_id) = store.map (fun r => r.rule_id) ∧
    (deactivateRule store id).map (fun r => r.rule_name) =
      store.map (fun r => r.rule_name) ∧
    (deactivateRule store id).length = store.length ∧
    deactivateRule (deactivateRule store id) id = deactivateRule store id ∧
    handleDeleteRuleRequest.method = "PUT" ∧
    handleDeleteRuleRequest.body_is_active = 0 := by
  refine ⟨deactivateRule_map (fun r => r.rule_id) (fun r => rfl) store id,
    deactivateRule_map (fun r => r.rule_name) (fun r => rfl) store id, ?_, ?_, rfl, rfl⟩
  · unfold deactivateRule
    exact List.length_map _ _
  · unfold deactivateRule
    rw [List.map_map]
    apply List.map_congr_left
    intro r _
    by_cases h : r.rule_id = id <;> simp [Function.comp, h]

/-- C9: the file path forwarded to the analysis endpoints is the
server-returned full_path with every backslash replaced by a forward
slash, and null exactly when no file was selected or the server returned
no (or a falsy empty) full_path. -/
theorem upload_path_normalized (sel : Bool) (fp : Option String) :
    (uploadPath sel fp = none ↔ sel = false ∨ fp = none ∨ fp = some "") ∧
    (∀ p, sel = true → fp = some p → ¬ p = "" →
      uploadPath sel fp = some (normalizePath p)) := by
  constructor
  · cases sel
    · simp [uploadPath]
    · cases fp with
      | none => simp [uploadPath]
      | some p => by_cases h : p = "" <;> simp [uploadPath, h]
  · intro p hsel hfp hne
    subst hsel; subst hfp
    simp [uploadPath, hne]

/-- Witness for C9 on a concrete Windows-style upload path. -/
theorem upload_path_normalized_witness :
    uploadPath true (some "C:\\tmp\\report.csv") = some (normalizePath "C:\\tmp\\report.csv") :=
  (upload_path_normalized true (some "C:\\tmp\\report.csv")).2 "C:\\tmp\\report.csv"
    rfl rfl (by decide)

/-- C10: the requested page never leaves [1, total_pages] — an out-of-range
request leaves the pagination state unchanged, the in-range invariant is
preserved by every page change, and the Previous/Next controls are
disabled at the lower and upper bound respectively. -/
theorem page_change_in_bounds (st : PaginationState) (newPage : Int) (loading : Bool)
    (hinv : 1 ≤ st.page ∧ st.page ≤ st.totalPages) :
    ((newPage < 1 ∨ (st.totalPages : Int) < newPage) → handlePageChange st newPage = st) ∧
    (1 ≤ (handlePageChange st newPage).page ∧
      (handlePageChange st newPage).page ≤ (handlePageChange st newPage).totalPages) ∧
    (st.page = 1 → prevDisabled st loading = true) ∧
    (st.page = st.totalPages → nextDisabled st loading = true) := by
  refine ⟨?_, ?_, ?_, ?_⟩
  · intro h
    unfold handlePageChange
    rw [if_neg (by omega)]
  · unfold handlePageChange
    split
    · rename_i hc
      constructor <;> simp <;> omega
    · exact hinv
  · intro h
    unfold prevDisabled
    rw [h]
    simp
  · intro h
    unfold nextDisabled
    rw [h]
    simp

/-- Witness for C10: from page 1 of 3, requesting page 5 leaves the state
unchanged. -/
theorem page_change_in_bounds_witness :
    handlePageChange { page := 1, totalPages := 3 } 5 = { page := 1, totalPages := 3 } :=
  (page_change_in_bounds { page := 1, totalPages := 3 } 5 false (by decide)).1 (by decide)

end DQ



